import Mathlib

/-!
Shallow embedding of the lead-harvesting pipeline in src/lead_finder.py
(class `BusinessLeadFinder` plus the Flask endpoints built on it).
Browser interaction is modelled by explicit "surface" records describing
what the rendered page exposes at each step; machine integers are `Nat`
and `Int`; fallible reads are `Option`.  The `while` scroll loop is
modelled with explicit fuel, and termination results show the fuel needed
is bounded.
-/

namespace LeadFinder

/-- ASCII whitespace, the characters the Python regex class `\s` matches
on the inputs in scope (lead_finder.py line 177). -/
def isSpaceChar (c : Char) : Bool :=
  c = ' ' || c = '\t' || c = '\n' || c = '\r' || c = '\x0b' || c = '\x0c'

/-- Separator class `[-.\s]` of the phone regex on line 177. -/
def isSepChar (c : Char) : Bool :=
  c = '-' || c = '.' || isSpaceChar c

/-- Consume exactly `n` decimal digits, returning them and the rest
(`[0-9]{n}` of the phone regex). -/
def takeDigits : Nat → List Char → Option (List Char × List Char)
  | 0, cs => some ([], cs)
  | _ + 1, [] => none
  | n + 1, c :: cs =>
      if c.isDigit then
        match takeDigits n cs with
        | some (g, rest) => some (c :: g, rest)
        | none => none
      else none

/-- Consume one optional character of class `p` (an `X?` regex atom).
For the phone pattern every optional class is disjoint from the digit
class that follows it, so the greedy choice agrees with Python's
backtracking. -/
def skipOpt (p : Char → Bool) : List Char → List Char
  | [] => []
  | c :: cs => if p c then cs else c :: cs

/-- Match `\(?([0-9]{3})\)?[-.\s]?([0-9]{3})[-.\s]?([0-9]{4})`
(lead_finder.py line 177) at the start of `cs`, returning the three
capture groups. -/
def matchPhoneAt (cs : List Char) : Option (List Char × List Char × List Char) :=
  let cs1 := skipOpt (fun c => c = '(') cs
  match takeDigits 3 cs1 with
  | none => none
  | some (g1, cs2) =>
      let cs3 := skipOpt (fun c => c = ')') cs2
      let cs4 := skipOpt isSepChar cs3
      match takeDigits 3 cs4 with
      | none => none
      | some (g2, cs5) =>
          let cs6 := skipOpt isSepChar cs5
          match takeDigits 4 cs6 with
          | none => none
          | some (g3, _) => some (g1, g2, g3)

/-- `re.search` of the phone pattern: leftmost match wins. -/
def searchPhone : List Char → Option (List Char × List Char × List Char)
  | [] => none
  | c :: cs =>
      match matchPhoneAt (c :: cs) with
      | some g => some g
      | none => searchPhone cs

/-- The canonical re-formatting on line 178:
the f-string producing `(NNN) NNN-NNNN`. -/
def formatPhone (g : List Char × List Char × List Char) : String :=
  "(" ++ String.mk g.1 ++ ") " ++ String.mk g.2.1 ++ "-" ++ String.mk g.2.2

/-- One element matched by the selector
`button[data-tooltip*='phone'], div[aria-label*='Phone']` (line 174).
The code reads `elem.get_attribute("aria-label") or elem.text`; a missing
or empty aria-label (both falsy) falls back to the element text, so both
are modelled by the empty string. -/
structure PhoneElem where
  ariaLabel : String
  text : String
deriving DecidableEq, Repr

/-- The text the phone loop scans for one element (line 176). -/
def elemScanText (e : PhoneElem) : String :=
  if e.ariaLabel = "" then e.text else e.ariaLabel

/-- The phone loop of lines 175-179: first element whose text matches
the pattern yields the formatted phone and the loop breaks. -/
def scanPhones : List PhoneElem → Option String
  | [] => none
  | e :: es =>
      match searchPhone (elemScanText e).data with
      | some g => some (formatPhone g)
      | none => scanPhones es

/-- Separator class exactly as the claim words it: '-', '.', or space
(strictly narrower than the code's `[-.\s]`). -/
def isSepCharSpec (c : Char) : Bool :=
  c = '-' || c = '.' || c = ' '

/-- The phone pattern as the claim describes it: like `matchPhoneAt`
but with separators restricted to '-', '.', space. -/
def matchPhoneAtSpec (cs : List Char) : Option (List Char × List Char × List Char) :=
  let cs1 := skipOpt (fun c => c = '(') cs
  match takeDigits 3 cs1 with
  | none => none
  | some (g1, cs2) =>
      let cs3 := skipOpt (fun c => c = ')') cs2
      let cs4 := skipOpt isSepCharSpec cs3
      match takeDigits 3 cs4 with
      | none => none
      | some (g2, cs5) =>
          let cs6 := skipOpt isSepCharSpec cs5
          match takeDigits 4 cs6 with
          | none => none
          | some (g3, _) => some (g1, g2, g3)

/-- Leftmost search for the claim-worded pattern. -/
def searchPhoneSpec : List Char → Option (List Char × List Char × List Char)
  | [] => none
  | c :: cs =>
      match matchPhoneAtSpec (c :: cs) with
      | some g => some g
      | none => searchPhoneSpec cs

/-- Digits to a natural number, as Python `int` on a digit string. -/
def digitsToNat (l : List Char) : Nat :=
  l.foldl (fun n c => n * 10 + (c.toNat - 48)) 0

/-- Match `\((\d+)\)` (line 159) at the start of `cs`.  The greedy
`\d+` is deterministic here because a shorter digit run would leave a
digit where `\)` is required. -/
def matchParenAt : List Char → Option Nat
  | '(' :: rest =>
      let ds := rest.takeWhile Char.isDigit
      let rest2 := rest.dropWhile Char.isDigit
      if ds.isEmpty then none
      else
        match rest2 with
        | ')' :: _ => some (digitsToNat ds)
        | _ => none
  | _ => none

/-- `re.search(r'\((\d+)\)', reviews)`: leftmost parenthesized integer. -/
def findParenInt : List Char → Option Nat
  | [] => none
  | c :: cs =>
      match matchParenAt (c :: cs) with
      | some n => some n
      | none => findParenInt cs

/-- Python `float(...)` on the stripped rating text, as an exact
rational; covers plain decimal literals (optional sign, digits, optional
fractional part), which is the shape rating spans carry — exotic float
syntax (exponents, inf/nan) is not needed for these inputs and parses to
`none` here. -/
def parseFloat (s : String) : Option Rat :=
  let cs := s.data
  let signAndRest : Bool × List Char :=
    match cs with
    | '-' :: rest => (true, rest)
    | '+' :: rest => (false, rest)
    | _ => (false, cs)
  let neg := signAndRest.1
  let body := signAndRest.2
  let intPart := body.takeWhile Char.isDigit
  let rest := body.dropWhile Char.isDigit
  match rest with
  | [] =>
      if intPart.isEmpty then none
      else some (if neg then -(digitsToNat intPart : Rat) else (digitsToNat intPart : Rat))
  | '.' :: frac =>
      if frac.all Char.isDigit ∧ ¬(intPart.isEmpty ∧ frac.isEmpty) then
        let v : Rat := (digitsToNat intPart : Rat) + (digitsToNat frac : Rat) / ((10 : Rat) ^ frac.length)
        some (if neg then -v else v)
      else none
  | _ => none

/-- What the rendered page exposes for one result card (`div.Nv2PK`),
the inputs of `extract_business_info` (lines 132-198).  `name = none`
models a failing name read, `clickFails` a failing `element.click()`:
either aborts the record.  Each remaining field is the observation of the
corresponding guarded read, `none` meaning the read raised/timed out. -/
structure Listing where
  name : Option String
  clickFails : Bool
  currentUrl : String
  ratingText : Option String
  reviewsText : Option String
  websiteHref : Option String
  phoneElems : List PhoneElem
  hoursRows : Option (List String)
deriving DecidableEq, Repr

/-- The lead dictionary built by `extract_business_info` (lines 138-150)
plus the `city` key added by `process_search_query` (line 229); these are
exactly the twelve columns inserted by `save_lead_to_db`. -/
structure Info where
  business_name : String
  phone : String
  has_website : String
  website_url : String
  google_maps_url : String
  business_hours : String
  rating : Option Rat
  review_count : Nat
  called : String
  deal_status : String
  notes : String
  city : String
deriving DecidableEq, Repr

/-- Python `str.strip()` on the inputs in scope: drop ASCII whitespace
from both ends, modelled over the character list so that it evaluates by
kernel reduction. -/
def pyStrip (s : String) : String :=
  String.mk (((s.data.dropWhile isSpaceChar).reverse.dropWhile isSpaceChar).reverse)

/-- Lines 152-163: rating and review count share a single try-block, so
a failure reading or parsing the rating also skips the review-count read;
a failure reading the review span after the rating was assigned keeps the
assigned rating. -/
def ratingReviewStep (el : Listing) (info : Info) : Info :=
  match el.ratingText with
  | none => info
  | some t =>
      match parseFloat (pyStrip t) with
      | none => info
      | some r =>
          let info1 := { info with rating := some r }
          match el.reviewsText with
          | none => info1
          | some rv =>
              if rv.data.contains '(' then
                match findParenInt rv.data with
                | some n => { info1 with review_count := n }
                | none => info1
              else info1

/-- Lines 165-170: the website anchor read. -/
def websiteStep (el : Listing) (info : Info) : Info :=
  match el.websiteHref with
  | none => info
  | some h => { info with has_website := "Yes", website_url := h }

/-- Lines 172-181: the phone scan. -/
def phoneStep (el : Listing) (info : Info) : Info :=
  match scanPhones el.phoneElems with
  | some s => { info with phone := s }
  | none => info

/-- Lines 183-192: the hours table read; `if hours:` keeps the default
when the table row list is empty, and the join keeps each row's raw text
while filtering rows that strip to empty. -/
def hoursStep (el : Listing) (info : Info) : Info :=
  match el.hoursRows with
  | none => info
  | some rows =>
      if rows.isEmpty then info
      else { info with business_hours :=
               String.intercalate "\n" (rows.filter (fun h => pyStrip h ≠ "")) }

/-- `extract_business_info` (lines 132-198): a failure reading the name
or clicking the card discards the record (`None`); otherwise the default
dictionary is refined by the four guarded steps. -/
def extract_business_info (el : Listing) : Option Info :=
  match el.name with
  | none => none
  | some nm =>
      if el.clickFails then none
      else
        let info0 : Info :=
          { business_name := pyStrip nm, phone := "", has_website := "No", website_url := ""
            google_maps_url := el.currentUrl, business_hours := "Hours not available"
            rating := none, review_count := 0, called := "No"
            deal_status := "Not Contacted", notes := "", city := "" }
        some (hoursStep el (phoneStep el (websiteStep el (ratingReviewStep el info0))))

/-- The natural key declared `UNIQUE(business_name, city)` by
`setup_database` (line 114). -/
def leadKey (r : Info) : String × String :=
  (r.business_name, r.city)

/-- `save_lead_to_db` (lines 277-296): `INSERT OR REPLACE` on the unique
key deletes every row conflicting on `(business_name, city)` and inserts
the new row; rows are modelled by the twelve inserted columns (the
autoincrement id and the server-assigned timestamp are storage metadata:
the fresh row is the newest, hence appended last).  This is the success
path; a storage failure leaves the table unchanged and only returns
False, which the caller ignores. -/
def save_lead_to_db (r : Info) (db : List Info) : List Info :=
  db.filter (fun x => leadKey x ≠ leadKey r) ++ [r]

/-- Fold `save_lead_to_db` over a list of records in order. -/
def upsertAll (rs : List Info) (db : List Info) : List Info :=
  rs.foldl (fun d r => save_lead_to_db r d) db

/-- The store invariant: the natural keys of the stored rows are
pairwise distinct. -/
def KeysNodup (db : List Info) : Prop :=
  (db.map leadKey).Nodup

/-- The rows returned by `SELECT * FROM leads ORDER BY timestamp DESC
LIMIT ?` (lines 301-305): newest first is reverse insertion order, and a
negative SQLite LIMIT means no limit. -/
def db_query_rows (db : List Info) (limit : Int) : List Info :=
  if limit < 0 then db.reverse else db.reverse.take limit.toNat

/-- `get_leads_from_db` (lines 298-311): any storage failure is caught
and yields the empty list; `failure = some e` models the query raising
with message `e`. -/
def get_leads_from_db (failure : Option String) (db : List Info) (limit : Int) : List Info :=
  match failure with
  | some _ => []
  | none => db_query_rows db limit

/-- What one iteration of the scroll loop observes: the currently
revealed result cards (`driver.find_elements`, line 221), whether the
iteration's scroll/read raises (the `except` on line 247), and the page
height measured after scrolling (line 240). -/
structure IterData where
  listings : List Listing
  raises : Bool
  newHeight : Int

/-- What one query's page exposes: whether the results container
`div.Nv2PK` appears within the wait (lines 206-213), and the per-iteration
observations. -/
structure QueryData where
  navOk : Bool
  iters : Nat → IterData

/-- What one location's harvest environment exposes: whether the i-th
driver-acquisition attempt would succeed, and each query's page. -/
structure LocationSurface where
  attempts : Nat → Bool
  queries : String → QueryData

/-- The whole job's environment, keyed by (city, province). -/
def JobSurface : Type :=
  String → String → LocationSurface

/-- The mutable run state of `BusinessLeadFinder`: `current_leads`,
`leads`, and the leads table. -/
structure HarvestState where
  current_leads : Nat
  leads : List Info
  db : List Info
deriving DecidableEq, Repr

/-- The `for result in results[processed_count:]` body of
`process_search_query` (lines 223-235): before each card the quota is
checked (an early `return` leaves the whole query, reported by the Bool);
a successful extraction appends to `self.leads`, saves to the store and
bumps `current_leads`; the Nat counts the cards fully processed, the
increment of `processed_count`. -/
def process_results (city : String) (tgt : Int) :
    List Listing → HarvestState → HarvestState × Nat × Bool
  | [], st => (st, 0, false)
  | r :: rest, st =>
      if (st.current_leads : Int) ≥ tgt then (st, 0, true)
      else
        let st1 :=
          match extract_business_info r with
          | some info0 =>
              let info := { info0 with city := city }
              { current_leads := st.current_leads + 1
                leads := st.leads ++ [info]
                db := save_lead_to_db info st.db }
          | none => st
        let res := process_results city tgt rest st1
        (res.1, res.2.1 + 1, res.2.2)

/-- The `while scroll_attempts < 20 and current_leads < target_leads`
loop of `process_search_query` (lines 215-249), with explicit fuel for
the unbounded iteration: `k` indexes iterations into the surface, `lastH`
and `att` are `last_height` and `scroll_attempts`, `proc` is
`processed_count`.  An iteration that raises is caught, logged and breaks
the loop (line 249); an equal height bumps the stability counter, a
different height resets it. -/
def scroll_loop (iters : Nat → IterData) (city : String) (tgt : Int) :
    Nat → Nat → Int → Nat → Nat → HarvestState → HarvestState
  | 0, _, _, _, _, st => st
  | fuel + 1, k, lastH, att, proc, st =>
      if att < 20 ∧ (st.current_leads : Int) < tgt then
        let it := iters k
        if it.raises then st
        else
          let res := process_results city tgt (it.listings.drop proc) st
          if res.2.2 then res.1
          else
            if it.newHeight = lastH then
              scroll_loop iters city tgt fuel (k + 1) lastH (att + 1) (proc + res.2.1) res.1
            else
              scroll_loop iters city tgt fuel (k + 1) it.newHeight 0 (proc + res.2.1) res.1
      else st

/-- `process_search_query` (lines 200-249): a navigation timeout (or any
navigation error) yields zero results for the query; otherwise the scroll
loop runs from `last_height = 0`, `scroll_attempts = 0`,
`processed_count = 0`. -/
def process_search_query (qd : QueryData) (city : String) (tgt : Int) (fuel : Nat)
    (st : HarvestState) : HarvestState :=
  if qd.navOk then scroll_loop qd.iters city tgt fuel 0 0 0 0 st else st

/-- The query list built by `search_location` (lines 258-264): the
literal job phrase first, then the four templated variants. -/
def search_queries (niche city province : String) : List String :=
  [niche ++ " in " ++ city ++ ", " ++ province,
   "local " ++ niche ++ " " ++ city,
   niche ++ " services " ++ city,
   "best " ++ niche ++ " " ++ city,
   "residential " ++ niche ++ " " ++ city]

/-- The `for query in search_queries` loop of `search_location`
(lines 266-269): `break` once the quota is reached. -/
def run_queries (ls : LocationSurface) (city : String) (tgt : Int) (fuel : Nat) :
    List String → HarvestState → HarvestState
  | [], st => st
  | q :: rest, st =>
      if (st.current_leads : Int) ≥ tgt then st
      else run_queries ls city tgt fuel rest (process_search_query (ls.queries q) city tgt fuel st)

/-- `initialize_driver` (lines 122-130): a single acquisition attempt;
any failure is caught and yields `None`.  `attempts i` says whether the
i-th attempt would succeed — the code only ever consults attempt 0. -/
def initialize_driver (attempts : Nat → Bool) : Option Unit :=
  if attempts 0 then some () else none

/-- `search_location` (lines 251-275): a failed driver acquisition
aborts this location (`return`), otherwise the query variants run against
the one session. -/
def search_location (ls : LocationSurface) (niche city province : String) (tgt : Int)
    (fuel : Nat) (st : HarvestState) : HarvestState :=
  match initialize_driver ls.attempts with
  | none => st
  | some _ => run_queries ls city tgt fuel (search_queries niche city province) st

/-- The static nearby-location table of `get_expanded_locations`
(lines 324-330). -/
def nearby_locations : List (String × List String) :=
  [("Toronto", ["North York", "Scarborough", "Etobicoke"]),
   ("Vancouver", ["Burnaby", "Richmond", "Surrey"]),
   ("Montreal", ["Laval", "Longueuil", "Brossard"]),
   ("Calgary", ["Airdrie", "Cochrane", "Chestermere"]),
   ("Mississauga", ["Brampton", "Oakville", "Milton"])]

/-- Dictionary lookup `city in nearby_locations` /
`nearby_locations[city]`. -/
def lookupNearby (city : String) : Option (List String) :=
  (nearby_locations.find? (fun p => p.1 = city)).map (fun p => p.2)

/-- `get_expanded_locations` (lines 323-335): the job's own city first,
then the first two nearby cities when the city is a key of the table. -/
def get_expanded_locations (city province : String) : List (String × String) :=
  match lookupNearby city with
  | none => [(city, province)]
  | some ns => (city, province) :: (ns.take 2).map (fun n => (n, province))

/-- The `for search_city, search_province in locations` loop of
`generate_leads` (lines 370-373): `break` once the quota is reached. -/
def run_locations (js : JobSurface) (niche : String) (tgt : Int) (fuel : Nat) :
    List (String × String) → HarvestState → HarvestState
  | [], st => st
  | loc :: rest, st =>
      if (st.current_leads : Int) ≥ tgt then st
      else run_locations js niche tgt fuel rest
             (search_location (js loc.1 loc.2) niche loc.1 loc.2 tgt fuel st)

/-- Outcome of the `/generate_leads` endpoint: either the 400 response
for missing required parameters, or the success payload
(`leads_found`, the in-memory lead list) together with the table left by
the run. -/
inductive GenResult where
  | invalidJob : GenResult
  | ok : Nat → List Info → List Info → GenResult
deriving DecidableEq, Repr

/-- `generate_leads` (lines 348-379): requires `niche`, `city`,
`province` truthy (missing and empty both model as `""`), does not
validate `target_leads`; resets `current_leads` and `leads`, iterates the
expanded locations, and reports `len(lead_finder.leads)`. -/
def generate_leads (js : JobSurface) (niche city province : String) (tgt : Int)
    (fuel : Nat) (db : List Info) : GenResult :=
  if niche = "" ∨ city = "" ∨ province = "" then GenResult.invalidJob
  else
    let st := run_locations js niche tgt fuel (get_expanded_locations city province)
                { current_leads := 0, leads := [], db := db }
    GenResult.ok st.leads.length st.leads st.db

/-- The `leads_found` field of the endpoint's JSON payload. -/
def GenResult.leadsFound : GenResult → Nat
  | GenResult.invalidJob => 0
  | GenResult.ok n _ _ => n

/-- The leads table after a call of the endpoint (an invalid job never
touches the table). -/
def dbAfter (js : JobSurface) (niche city province : String) (tgt : Int) (fuel : Nat)
    (db : List Info) : List Info :=
  match generate_leads js niche city province tgt fuel db with
  | GenResult.invalidJob => db
  | GenResult.ok _ _ d => d

/-- A result card that extracts successfully with every optional field
missing. -/
def exListing : Listing :=
  { name := some "Acme Plumbing", clickFails := false
    currentUrl := "https://maps.example/acme"
    ratingText := none, reviewsText := none, websiteHref := none
    phoneElems := [], hoursRows := none }

/-- A quiet surface: one listing per iteration view, constant height. -/
def exIter : IterData :=
  { listings := [exListing], raises := false, newHeight := 100 }

/-- A query page whose results container always appears. -/
def exQuery : QueryData :=
  { navOk := true, iters := fun _ => exIter }

/-- A location whose driver acquisition always succeeds. -/
def exLoc : LocationSurface :=
  { attempts := fun _ => true, queries := fun _ => exQuery }

/-- A job environment made of `exLoc` everywhere. -/
def exJS : JobSurface :=
  fun _ _ => exLoc

/-- Acquisition attempts that fail the first time and would succeed on
any retry. -/
def exAttempts : Nat → Bool :=
  fun i => i != 0

/-- A location whose driver acquisition always fails. -/
def exLocFail : LocationSurface :=
  { attempts := fun _ => false, queries := fun _ => exQuery }

/-- A job environment made of `exLocFail` everywhere. -/
def exJSFail : JobSurface :=
  fun _ _ => exLocFail

/-- An iteration view whose scroll/read raises. -/
def exIterRaise : IterData :=
  { listings := [], raises := true, newHeight := 100 }

/-- A query page whose first scroll iteration raises while every later
iteration would expose an extractable listing and a growing height. -/
def exQueryRaises : QueryData :=
  { navOk := true
    iters := fun j =>
      if j = 0 then exIterRaise
      else { listings := [exListing], raises := false, newHeight := 100 + (j : Int) } }

/-- A location built over `exQueryRaises`. -/
def exLocRaises : LocationSurface :=
  { attempts := fun _ => true, queries := fun _ => exQueryRaises }

/-- Once the quota is reached, the location loop does nothing more. -/
theorem run_locations_stop (js : JobSurface) (niche : String) (tgt : Int) (fuel : Nat) :
    ∀ (locs : List (String × String)) (st : HarvestState),
      (st.current_leads : Int) ≥ tgt → run_locations js niche tgt fuel locs st = st := by
  intro locs st h
  cases locs with
  | nil => rfl
  | cons loc rest => simp [run_locations, if_pos h]

/-- Once the quota is reached, the query loop does nothing more. -/
theorem run_queries_stop (ls : LocationSurface) (city : String) (tgt : Int) (fuel : Nat) :
    ∀ (qs : List String) (st : HarvestState),
      (st.current_leads : Int) ≥ tgt → run_queries ls city tgt fuel qs st = st := by
  intro qs st h
  cases qs with
  | nil => rfl
  | cons q rest => simp [run_queries, if_pos h]

/-- An iteration whose scroll/read raises is caught and leaves the loop
with the state unchanged. -/
theorem scroll_loop_raises (iters : Nat → IterData) (city : String) (tgt : Int)
    (fuel k : Nat) (lastH : Int) (att proc : Nat) (st : HarvestState)
    (h : (iters k).raises = true) :
    scroll_loop iters city tgt fuel k lastH att proc st = st := by
  cases fuel with
  | zero => rfl
  | succ n =>
      simp only [scroll_loop]
      split
      · simp [h]
      · rfl

/-- C10: the stored-lead retrieval never raises to its caller — when the
underlying storage query fails, for every limit the result is the empty
list, so callers always receive a (possibly empty) list of records. -/
theorem fetch_leads_error_swallowed (e : String) (db : List Info) (limit : Int) :
    get_leads_from_db (some e) db limit = [] := rfl

/-- C7 counterexample: a job whose text fields are all present but whose
target count is 0 (non-positive) is not rejected — the endpoint returns
the success payload with zero leads instead of the InvalidJob failure the
claim demands. -/
theorem invalid_target_accepted_counterexample :
    generate_leads exJS "plumber" "Toronto" "ON" 0 5 [] = GenResult.ok 0 [] [] ∧
    generate_leads exJS "plumber" "Toronto" "ON" 0 5 [] ≠ GenResult.invalidJob := by
  constructor
  · decide
  · decide

/-- C7 (amended): the endpoint fails with InvalidJob exactly when niche,
city or region is missing/empty; a non-positive target count is accepted
and the run succeeds with zero leads and an untouched store. -/
theorem job_validation_amended (js : JobSurface) (niche city province : String)
    (tgt : Int) (fuel : Nat) (db : List Info) :
    ((niche = "" ∨ city = "" ∨ province = "") →
        generate_leads js niche city province tgt fuel db = GenResult.invalidJob) ∧
    (niche ≠ "" → city ≠ "" → province ≠ "" → tgt ≤ 0 →
        generate_leads js niche city province tgt fuel db = GenResult.ok 0 [] db) := by
  constructor
  · intro h
    simp [generate_leads, h]
  · intro h1 h2 h3 htgt
    have hcond : ¬(niche = "" ∨ city = "" ∨ province = "") := by
      simp [h1, h2, h3]
    have hstop := run_locations_stop js niche tgt fuel (get_expanded_locations city province)
      { current_leads := 0, leads := [], db := db } (by exact_mod_cast htgt)
    simp [generate_leads, if_neg hcond, hstop]

/-- Witness for the amended C7 at concrete inputs. -/
theorem job_validation_amended_witness :
    generate_leads exJS "" "Toronto" "ON" 5 5 [] = GenResult.invalidJob ∧
    generate_leads exJS "plumber" "Toronto" "ON" (-3) 5 [] = GenResult.ok 0 [] [] :=
  ⟨(job_validation_amended exJS "" "Toronto" "ON" 5 5 []).1 (Or.inl rfl),
   (job_validation_amended exJS "plumber" "Toronto" "ON" (-3) 5 []).2
     (by decide) (by decide) (by decide) (by decide)⟩

/-- C6 counterexample: the driver acquisition gives up after a single
failed attempt — with attempts that fail once and would succeed on any
retry, the component still surfaces the failure (`None`), refuting the
claimed 3-attempt retry budget. -/
theorem driver_init_no_retry_counterexample :
    initialize_driver exAttempts = none ∧ exAttempts 1 = true ∧ exAttempts 2 = true := by
  decide

/-- C6 (amended): acquisition is attempted exactly once; a single failure
aborts only the current location's harvest (the state is unchanged) and
the coordinator proceeds to the remaining locations of the job. -/
theorem driver_init_single_attempt_amended (js : JobSurface) (ls : LocationSurface)
    (niche city province : String) (tgt : Int) (fuel : Nat) (st : HarvestState)
    (rest : List (String × String)) (c p : String)
    (h : ls.attempts 0 = false) (h2 : (js c p).attempts 0 = false) :
    search_location ls niche city province tgt fuel st = st ∧
    run_locations js niche tgt fuel ((c, p) :: rest) st =
      run_locations js niche tgt fuel rest st := by
  have habort : ∀ (ls2 : LocationSurface) (c2 p2 : String), ls2.attempts 0 = false →
      search_location ls2 niche c2 p2 tgt fuel st = st := by
    intro ls2 c2 p2 hf
    simp [search_location, initialize_driver, hf]
  refine ⟨habort ls city province h, ?_⟩
  by_cases hq : (st.current_leads : Int) ≥ tgt
  · rw [run_locations_stop js niche tgt fuel _ st hq,
        run_locations_stop js niche tgt fuel rest st hq]
  · simp only [run_locations, if_neg hq]
    rw [habort (js c p) c p h2]

/-- Witness for the amended C6 at concrete inputs. -/
theorem driver_init_single_attempt_amended_witness :
    search_location exLocFail "plumber" "Toronto" "ON" 5 5 ⟨0, [], []⟩ = ⟨0, [], []⟩ ∧
    run_locations exJSFail "plumber" 5 5 [("Toronto", "ON"), ("North York", "ON")] ⟨0, [], []⟩ =
      run_locations exJSFail "plumber" 5 5 [("North York", "ON")] ⟨0, [], []⟩ :=
  driver_init_single_attempt_amended exJSFail exLocFail "plumber" "Toronto" "ON" 5 5
    ⟨0, [], []⟩ [("North York", "ON")] "Toronto" "ON" rfl rfl

/-- C5 counterexample: a failure in the first scroll iteration aborts the
whole query's loop — later iterations expose an extractable listing and a
growing height, yet the run collects nothing, refuting the claim that the
loop continues with the next iteration. -/
theorem scroll_failure_aborts_query_counterexample :
    process_search_query exQueryRaises "Toronto" 10 30 ⟨0, [], []⟩ = ⟨0, [], []⟩ ∧
    (exQueryRaises.iters 1).listings = [exListing] ∧
    (extract_business_info exListing).isSome = true := by
  decide

/-- C5 (amended): a failure during a scroll/read iteration is caught and
logged, the current query's scroll loop exits with the state — hence all
leads collected before the failure — preserved, and the remaining queries
of the same location still run. -/
theorem scroll_failure_caught_amended (ls : LocationSurface) (q : String)
    (rest : List String) (city : String) (tgt : Int) (fuel k : Nat) (lastH : Int)
    (att proc : Nat) :
    (∀ st : HarvestState, ((ls.queries q).iters k).raises = true →
        scroll_loop (ls.queries q).iters city tgt fuel k lastH att proc st = st) ∧
    (∀ st : HarvestState, ((ls.queries q).iters 0).raises = true →
        run_queries ls city tgt fuel (q :: rest) st = run_queries ls city tgt fuel rest st) := by
  constructor
  · intro st h
    exact scroll_loop_raises _ city tgt fuel k lastH att proc st h
  · intro st h
    by_cases hq : (st.current_leads : Int) ≥ tgt
    · rw [run_queries_stop ls city tgt fuel _ st hq, run_queries_stop ls city tgt fuel rest st hq]
    · simp only [run_queries, if_neg hq]
      have hpsq : process_search_query (ls.queries q) city tgt fuel st = st := by
        rw [process_search_query]
        split
        · exact scroll_loop_raises _ city tgt fuel 0 0 0 0 st h
        · rfl
      rw [hpsq]

/-- Witness for the amended C5 at concrete inputs. -/
theorem scroll_failure_caught_amended_witness :
    scroll_loop (exLocRaises.queries "a").iters "Toronto" 10 30 0 0 0 0 ⟨0, [], []⟩ = ⟨0, [], []⟩ ∧
    run_queries exLocRaises "Toronto" 10 30 ["a", "b"] ⟨0, [], []⟩ =
      run_queries exLocRaises "Toronto" 10 30 ["b"] ⟨0, [], []⟩ :=
  ⟨(scroll_failure_caught_amended exLocRaises "a" ["b"] "Toronto" 10 30 0 0 0 0).1
      ⟨0, [], []⟩ (by decide),
   (scroll_failure_caught_amended exLocRaises "a" ["b"] "Toronto" 10 30 0 0 0 0).2
      ⟨0, [], []⟩ (by decide)⟩

/-- Run invariant: `current_leads` counts the in-memory lead list, and
the count never exceeds the target. -/
def GoodState (tgt : Int) (st : HarvestState) : Prop :=
  st.current_leads = st.leads.length ∧ (st.current_leads : Int) ≤ tgt

/-- The per-card loop preserves the quota invariant: each increment of
`current_leads` happens under the `current_leads >= target_leads` check. -/
theorem good_process_results (city : String) (tgt : Int) :
    ∀ (rs : List Listing) (st : HarvestState), GoodState tgt st →
      GoodState tgt (process_results city tgt rs st).1 := by
  intro rs
  induction rs with
  | nil => intro st h; exact h
  | cons r rest ih =>
      intro st h
      rw [process_results]
      by_cases hge : (st.current_leads : Int) ≥ tgt
      · rw [if_pos hge]; exact h
      · rw [if_neg hge]
        have hlt : (st.current_leads : Int) < tgt := lt_of_not_ge hge
        cases hext : extract_business_info r with
        | none =>
            simp only [hext]
            exact ih st h
        | some info0 =>
            simp only [hext]
            refine ih _ ⟨?_, ?_⟩
            · simp [h.1]
            · show ((st.current_leads + 1 : Nat) : Int) ≤ tgt
              omega

/-- The scroll loop preserves the quota invariant. -/
theorem good_scroll_loop (iters : Nat → IterData) (city : String) (tgt : Int) :
    ∀ (fuel k : Nat) (lastH : Int) (att proc : Nat) (st : HarvestState), GoodState tgt st →
      GoodState tgt (scroll_loop iters city tgt fuel k lastH att proc st) := by
  intro fuel
  induction fuel with
  | zero => intro _ _ _ _ st h; exact h
  | succ n ih =>
      intro k lastH att proc st h
      rw [scroll_loop]
      split
      · dsimp only
        split
        · exact h
        · have hpr := good_process_results city tgt ((iters k).listings.drop proc) st h
          split
          · exact hpr
          · split
            · exact ih (k + 1) lastH (att + 1) _ _ hpr
            · exact ih (k + 1) (iters k).newHeight 0 _ _ hpr
      · exact h

/-- One query preserves the quota invariant. -/
theorem good_process_search_query (qd : QueryData) (city : String) (tgt : Int)
    (fuel : Nat) (st : HarvestState) (h : GoodState tgt st) :
    GoodState tgt (process_search_query qd city tgt fuel st) := by
  rw [process_search_query]
  split
  · exact good_scroll_loop qd.iters city tgt fuel 0 0 0 0 st h
  · exact h

/-- The query loop preserves the quota invariant. -/
theorem good_run_queries (ls : LocationSurface) (city : String) (tgt : Int) (fuel : Nat) :
    ∀ (qs : List String) (st : HarvestState), GoodState tgt st →
      GoodState tgt (run_queries ls city tgt fuel qs st) := by
  intro qs
  induction qs with
  | nil => intro st h; exact h
  | cons q rest ih =>
      intro st h
      rw [run_queries]
      split
      · exact h
      · exact ih _ (good_process_search_query (ls.queries q) city tgt fuel st h)

/-- One location preserves the quota invariant. -/
theorem good_search_location (ls : LocationSurface) (niche city province : String)
    (tgt : Int) (fuel : Nat) (st : HarvestState) (h : GoodState tgt st) :
    GoodState tgt (search_location ls niche city province tgt fuel st) := by
  rw [search_location]
  cases initialize_driver ls.attempts with
  | none => exact h
  | some d => exact good_run_queries ls city tgt fuel _ st h

/-- The location loop preserves the quota invariant. -/
theorem good_run_locations (js : JobSurface) (niche : String) (tgt : Int) (fuel : Nat) :
    ∀ (locs : List (String × String)) (st : HarvestState), GoodState tgt st →
      GoodState tgt (run_locations js niche tgt fuel locs st) := by
  intro locs
  induction locs with
  | nil => intro st h; exact h
  | cons loc rest ih =>
      intro st h
      rw [run_locations]
      split
      · exact h
      · exact ih _ (good_search_location (js loc.1 loc.2) niche loc.1 loc.2 tgt fuel st h)

/-- C1: for every harvest run with a non-negative target, the reported
leads_found (the length of the in-memory lead list) is at most the job's
target count, regardless of what the search surface exposes: the cutoff
is checked before each location, each query and each individual
extraction, so the run never overshoots the quota. -/
theorem quota_respected (js : JobSurface) (niche city province : String) (tgt : Int)
    (fuel : Nat) (db : List Info) (h : 0 ≤ tgt) :
    ((generate_leads js niche city province tgt fuel db).leadsFound : Int) ≤ tgt := by
  rw [generate_leads]
  split
  · simpa [GenResult.leadsFound] using h
  · have hg := good_run_locations js niche tgt fuel (get_expanded_locations city province)
      { current_leads := 0, leads := [], db := db } ⟨rfl, by simpa using h⟩
    simpa [GenResult.leadsFound, hg.1] using hg.2

/-- Witness for C1 at a concrete surface and job. -/
theorem quota_respected_witness :
    0 ≤ (1 : Int) ∧
      ((generate_leads exJS "plumber" "Toronto" "ON" 1 5 []).leadsFound : Int) ≤ 1 :=
  ⟨by decide, quota_respected exJS "plumber" "Toronto" "ON" 1 5 [] (by decide)⟩


/-- C9: the planner emits the literal job phrase as the first query
followed by the four templated variants; expansion adds nearby locations
only for cities in the static lookup (an unknown city gets exactly one
location), and a further location is only searched while the target has
not been met. -/
theorem query_plan_shape :
    (∀ niche city province : String,
        search_queries niche city province =
          [niche ++ " in " ++ city ++ ", " ++ province,
           "local " ++ niche ++ " " ++ city,
           niche ++ " services " ++ city,
           "best " ++ niche ++ " " ++ city,
           "residential " ++ niche ++ " " ++ city]) ∧
    (∀ city province : String, lookupNearby city = none →
        get_expanded_locations city province = [(city, province)]) ∧
    (∀ (city province : String) (ns : List String), lookupNearby city = some ns →
        get_expanded_locations city province =
          (city, province) :: (ns.take 2).map (fun n => (n, province))) ∧
    (∀ (js : JobSurface) (niche : String) (tgt : Int) (fuel : Nat)
        (loc : String × String) (rest : List (String × String)) (st : HarvestState),
        (st.current_leads : Int) ≥ tgt →
        run_locations js niche tgt fuel (loc :: rest) st = st) := by
  refine ⟨fun _ _ _ => rfl, ?_, ?_, ?_⟩
  · intro city province hnone
    simp [get_expanded_locations, hnone]
  · intro city province ns hsome
    simp [get_expanded_locations, hsome]
  · intro js niche tgt fuel loc rest st h
    exact run_locations_stop js niche tgt fuel (loc :: rest) st h

/-- Witness for C9 at concrete inputs: an unknown city expands to the
single primary location, and a met quota stops the location loop. -/
theorem query_plan_shape_witness :
    get_expanded_locations "Guelph" "ON" = [("Guelph", "ON")] ∧
    run_locations exJS "plumber" 2 5 [("Toronto", "ON")] ⟨3, [], []⟩ = ⟨3, [], []⟩ :=
  ⟨query_plan_shape.2.1 "Guelph" "ON" (by decide),
   query_plan_shape.2.2.2 exJS "plumber" 2 5 ("Toronto", "ON") [] ⟨3, [], []⟩ (by decide)⟩

/-- Once the stability counter has reached the threshold of 20, the
loop guard fails whatever fuel remains. -/
theorem scroll_loop_att20 (iters : Nat → IterData) (city : String) (tgt : Int) :
    ∀ (fuel k : Nat) (lastH : Int) (proc : Nat) (st : HarvestState),
      scroll_loop iters city tgt fuel k lastH 20 proc st = st := by
  intro fuel k lastH proc st
  cases fuel with
  | zero => rfl
  | succ n =>
      rw [scroll_loop, if_neg]
      intro hcontra
      exact absurd hcontra.1 (by omega)

/-- Under a constant page height the stability counter `att` rises by one
every iteration, so the loop needs at most `20 - att` further iterations:
any extra fuel beyond that is unused. -/
theorem scroll_loop_stable (iters : Nat → IterData) (city : String) (tgt : Int) (h : Int)
    (hconst : ∀ j, (iters j).newHeight = h) :
    ∀ (m extra att : Nat), att + m = 20 →
      ∀ (k proc : Nat) (st : HarvestState),
        scroll_loop iters city tgt (m + extra) k h att proc st =
          scroll_loop iters city tgt m k h att proc st := by
  intro m
  induction m with
  | zero =>
      intro extra att hatt k proc st
      have h20 : att = 20 := by omega
      subst h20
      rw [Nat.zero_add]
      rw [scroll_loop_att20, scroll_loop_att20]
  | succ m ih =>
      intro extra att hatt k proc st
      have hf : m + 1 + extra = (m + extra) + 1 := by omega
      rw [hf]
      conv_lhs => rw [scroll_loop]
      conv_rhs => rw [scroll_loop]
      by_cases hg : att < 20 ∧ (st.current_leads : Int) < tgt
      · rw [if_pos hg, if_pos hg]
        dsimp only
        by_cases hr : (iters k).raises = true
        · rw [if_pos hr, if_pos hr]
        · rw [if_neg hr, if_neg hr]
          by_cases he : (process_results city tgt ((iters k).listings.drop proc) st).2.2 = true
          · rw [if_pos he, if_pos he]
          · rw [if_neg he, if_neg he]
            rw [hconst k, if_pos rfl, if_pos rfl]
            exact ih extra (att + 1) (by omega) (k + 1) _ _
      · rw [if_neg hg, if_neg hg]

/-- C4: the pagination driver's scroll loop terminates in a bounded
number of iterations when the page reports a constant height: the
stability counter increments on every equal-height iteration and the loop
exits at the threshold of 20 (or earlier, when the quota is reached or an
iteration raises), so fuel beyond 21 iterations is never consumed. -/
theorem scroll_termination_constant_height (qd : QueryData) (city : String) (tgt : Int)
    (h : Int) (st : HarvestState) (extra : Nat)
    (hconst : ∀ j, (qd.iters j).newHeight = h) :
    process_search_query qd city tgt (21 + extra) st =
      process_search_query qd city tgt 21 st := by
  rw [process_search_query, process_search_query]
  by_cases hnav : qd.navOk = true
  · rw [if_pos hnav, if_pos hnav]
    rw [show 21 + extra = (20 + extra) + 1 from by omega]
    rw [show (21 : Nat) = 20 + 1 from rfl]
    conv_lhs => rw [scroll_loop]
    conv_rhs => rw [scroll_loop]
    by_cases hg : 0 < 20 ∧ (st.current_leads : Int) < tgt
    · rw [if_pos hg, if_pos hg]
      dsimp only
      by_cases hr : (qd.iters 0).raises = true
      · rw [if_pos hr, if_pos hr]
      · rw [if_neg hr, if_neg hr]
        by_cases he : (process_results city tgt ((qd.iters 0).listings.drop 0) st).2.2 = true
        · rw [if_pos he, if_pos he]
        · rw [if_neg he, if_neg he]
          rw [hconst 0]
          by_cases hh : h = (0 : Int)
          · rw [if_pos hh, if_pos hh]
            subst hh
            rw [show 20 + extra = 19 + (extra + 1) from by omega]
            rw [show (20 : Nat) = 19 + 1 from rfl]
            rw [scroll_loop_stable qd.iters city tgt 0 hconst 19 (extra + 1) 1 (by omega),
                scroll_loop_stable qd.iters city tgt 0 hconst 19 1 1 (by omega)]
          · rw [if_neg hh, if_neg hh]
            rw [scroll_loop_stable qd.iters city tgt h hconst 20 extra 0 (by omega)]
    · rw [if_neg hg, if_neg hg]
  · rw [if_neg hnav, if_neg hnav]

/-- Witness for C4 at a concrete constant-height surface. -/
theorem scroll_termination_constant_height_witness :
    process_search_query exQuery "Toronto" 50 (21 + 9) ⟨0, [], []⟩ =
      process_search_query exQuery "Toronto" 50 21 ⟨0, [], []⟩ :=
  scroll_termination_constant_height exQuery "Toronto" 50 100 ⟨0, [], []⟩ 9 (fun _ => rfl)

/-- When every rating read or parse fails, the rating/review step leaves
the record untouched (rating stays None, review count stays 0). -/
theorem ratingReviewStep_fail (L : Listing) (info : Info)
    (hr : ∀ t, L.ratingText = some t → parseFloat (pyStrip t) = none) :
    ratingReviewStep L info = info := by
  cases hrt : L.ratingText with
  | none => simp [ratingReviewStep, hrt]
  | some t => simp [ratingReviewStep, hrt, hr t hrt]

/-- The website step only touches the website fields. -/
theorem websiteStep_fields (L : Listing) (info : Info) :
    (websiteStep L info).rating = info.rating ∧
    (websiteStep L info).review_count = info.review_count ∧
    (websiteStep L info).phone = info.phone ∧
    (websiteStep L info).has_website =
      (if L.websiteHref.isSome then "Yes" else info.has_website) ∧
    (websiteStep L info).website_url =
      (match L.websiteHref with | some h => h | none => info.website_url) := by
  cases h : L.websiteHref <;> simp [websiteStep, h]

/-- The phone step only touches the phone field. -/
theorem phoneStep_fields (L : Listing) (info : Info) :
    (phoneStep L info).rating = info.rating ∧
    (phoneStep L info).review_count = info.review_count ∧
    (phoneStep L info).has_website = info.has_website ∧
    (phoneStep L info).website_url = info.website_url ∧
    (phoneStep L info).phone =
      (match scanPhones L.phoneElems with | some s => s | none => info.phone) := by
  cases h : scanPhones L.phoneElems <;> simp [phoneStep, h]

/-- The hours step only touches the business-hours field. -/
theorem hoursStep_fields (L : Listing) (info : Info) :
    (hoursStep L info).rating = info.rating ∧
    (hoursStep L info).review_count = info.review_count ∧
    (hoursStep L info).has_website = info.has_website ∧
    (hoursStep L info).website_url = info.website_url ∧
    (hoursStep L info).phone = info.phone := by
  rw [hoursStep]
  cases L.hoursRows with
  | none => exact ⟨rfl, rfl, rfl, rfl, rfl⟩
  | some rows => refine ⟨?_, ?_, ?_, ?_, ?_⟩ <;> split <;> (try split) <;> rfl

/-- A result card with a non-numeric rating text whose review label does
carry a parenthesized integer. -/
def exListingBadRating : Listing :=
  { name := some "Acme Plumbing", clickFails := false
    currentUrl := "https://maps.example/acme"
    ratingText := some "N/A", reviewsText := some "(42)"
    websiteHref := some "https://acme.example", phoneElems := [], hoursRows := none }

/-- C8 counterexample: a listing whose rating text is non-numeric but
whose review label contains the parenthesized integer (42) yields
review_count 0, not the parsed 42: rating and review count share one
fault domain, refuting the claimed independence of the two steps. -/
theorem rating_review_coupled_counterexample :
    (extract_business_info exListingBadRating).map Info.rating = some none ∧
    (extract_business_info exListingBadRating).map Info.review_count = some 0 ∧
    findParenInt ("(42)").data = some 42 :=
  ⟨by decide, by decide, by decide⟩

/-- C8 (amended): rating and review count share a single fault domain —
a failed rating read or parse also skips the review-count read, yielding
rating None together with review_count 0 — while the remaining steps stay
independently fault-tolerant: under any rating failure the record is
still produced and website, phone (and hours) are extracted from their
own observations. -/
theorem extraction_fault_domains_amended (L : Listing) (nm : String)
    (hn : L.name = some nm) (hc : L.clickFails = false)
    (hr : ∀ t, L.ratingText = some t → parseFloat (pyStrip t) = none) :
    (extract_business_info L).map Info.rating = some none ∧
    (extract_business_info L).map Info.review_count = some 0 ∧
    (extract_business_info L).map Info.has_website =
      some (if L.websiteHref.isSome then "Yes" else "No") ∧
    (extract_business_info L).map Info.website_url =
      some (match L.websiteHref with | some h => h | none => "") ∧
    (extract_business_info L).map Info.phone =
      some (match scanPhones L.phoneElems with | some s => s | none => "") := by
  have hext : extract_business_info L =
      some (hoursStep L (phoneStep L (websiteStep L
        ({ business_name := pyStrip nm, phone := "", has_website := "No", website_url := ""
           google_maps_url := L.currentUrl, business_hours := "Hours not available"
           rating := none, review_count := 0, called := "No"
           deal_status := "Not Contacted", notes := "", city := "" } : Info)))) := by
    simp only [extract_business_info, hn, hc, Bool.false_eq_true, if_false,
      ratingReviewStep_fail L _ hr]
  rw [hext]
  simp only [Option.map_some']
  refine ⟨?_, ?_, ?_, ?_, ?_⟩
  · rw [(hoursStep_fields L _).1, (phoneStep_fields L _).1, (websiteStep_fields L _).1]
  · rw [(hoursStep_fields L _).2.1, (phoneStep_fields L _).2.1, (websiteStep_fields L _).2.1]
  · rw [(hoursStep_fields L _).2.2.1, (phoneStep_fields L _).2.2.1,
      (websiteStep_fields L _).2.2.2.1]
  · rw [(hoursStep_fields L _).2.2.2.1, (phoneStep_fields L _).2.2.2.1,
      (websiteStep_fields L _).2.2.2.2]
  · rw [(hoursStep_fields L _).2.2.2.2, (phoneStep_fields L _).2.2.2.2,
      (websiteStep_fields L _).2.2.1]

/-- Witness for the amended C8 at a concrete listing whose rating text
fails to parse. -/
theorem extraction_fault_domains_amended_witness :
    (extract_business_info exListingBadRating).map Info.rating = some none ∧
    (extract_business_info exListingBadRating).map Info.review_count = some 0 ∧
    (extract_business_info exListingBadRating).map Info.has_website = some "Yes" ∧
    (extract_business_info exListingBadRating).map Info.website_url =
      some "https://acme.example" ∧
    (extract_business_info exListingBadRating).map Info.phone = some "" :=
  extraction_fault_domains_amended exListingBadRating "Acme Plumbing" rfl rfl
    (fun t ht => by
      injection ht with h2
      subst h2
      decide)

/-- Groups returned by `takeDigits` have the requested length and are
all digits. -/
theorem takeDigits_spec :
    ∀ (n : Nat) (cs g rest : List Char), takeDigits n cs = some (g, rest) →
      g.length = n ∧ g.all Char.isDigit = true := by
  intro n
  induction n with
  | zero =>
      intro cs g rest h
      rw [takeDigits] at h
      simp only [Option.some.injEq, Prod.mk.injEq] at h
      rw [← h.1]
      exact ⟨rfl, rfl⟩
  | succ n ih =>
      intro cs g rest h
      cases cs with
      | nil => simp [takeDigits] at h
      | cons c cs2 =>
          rw [takeDigits] at h
          by_cases hd : c.isDigit
          · rw [if_pos hd] at h
            cases htd : takeDigits n cs2 with
            | none => rw [htd] at h; simp at h
            | some p =>
                obtain ⟨g2, r2⟩ := p
                rw [htd] at h
                simp only [Option.some.injEq, Prod.mk.injEq] at h
                obtain ⟨hg, hrest⟩ := h
                subst hg
                obtain ⟨ih1, ih2⟩ := ih cs2 g2 r2 htd
                simp [ih1, hd, ih2]
          · rw [if_neg hd] at h
            simp at h

/-- The three capture groups of the phone pattern are digit runs of
lengths 3, 3, 4. -/
theorem matchPhoneAt_groups (cs : List Char) (g : List Char × List Char × List Char)
    (h : matchPhoneAt cs = some g) :
    (g.1.length = 3 ∧ g.1.all Char.isDigit = true) ∧
    (g.2.1.length = 3 ∧ g.2.1.all Char.isDigit = true) ∧
    (g.2.2.length = 4 ∧ g.2.2.all Char.isDigit = true) := by
  simp only [matchPhoneAt] at h
  cases h1 : takeDigits 3 (skipOpt (fun c => c = '(') cs) with
  | none => rw [h1] at h; simp at h
  | some p1 =>
      obtain ⟨g1, cs2⟩ := p1
      rw [h1] at h
      dsimp only at h
      cases h2 : takeDigits 3 (skipOpt isSepChar (skipOpt (fun c => c = ')') cs2)) with
      | none => rw [h2] at h; simp at h
      | some p2 =>
          obtain ⟨g2, cs5⟩ := p2
          rw [h2] at h
          dsimp only at h
          cases h3 : takeDigits 4 (skipOpt isSepChar cs5) with
          | none => rw [h3] at h; simp at h
          | some p3 =>
              obtain ⟨g3, rest⟩ := p3
              rw [h3] at h
              simp only [Option.some.injEq] at h
              subst h
              exact ⟨takeDigits_spec 3 _ g1 cs2 h1, takeDigits_spec 3 _ g2 cs5 h2,
                takeDigits_spec 4 _ g3 rest h3⟩

/-- The leftmost search inherits the group shape. -/
theorem searchPhone_groups :
    ∀ (cs : List Char) (g : List Char × List Char × List Char),
      searchPhone cs = some g →
      (g.1.length = 3 ∧ g.1.all Char.isDigit = true) ∧
      (g.2.1.length = 3 ∧ g.2.1.all Char.isDigit = true) ∧
      (g.2.2.length = 4 ∧ g.2.2.all Char.isDigit = true) := by
  intro cs
  induction cs with
  | nil => intro g h; simp [searchPhone] at h
  | cons c cs2 ih =>
      intro g h
      rw [searchPhone] at h
      cases hm : matchPhoneAt (c :: cs2) with
      | none => rw [hm] at h; exact ih g h
      | some g0 =>
          rw [hm] at h
          simp only [Option.some.injEq] at h
          subst h
          exact matchPhoneAt_groups (c :: cs2) g0 hm

/-- The canonical `(NNN) NNN-NNNN` shape: three digit groups of sizes
3, 3, 4 assembled exactly as the formatting on line 178 assembles them. -/
def CanonicalPhone (s : String) : Prop :=
  ∃ a b c : List Char,
    a.length = 3 ∧ b.length = 3 ∧ c.length = 4 ∧
    a.all Char.isDigit = true ∧ b.all Char.isDigit = true ∧ c.all Char.isDigit = true ∧
    s = "(" ++ String.mk a ++ ") " ++ String.mk b ++ "-" ++ String.mk c

/-- C3 counterexample: a tab is matched by the code's separator class
(regex `\s`) but is not one of '-', '.', space — a tab-separated number
contains no match of the pattern as the claim words it, yet the extractor
produces a formatted phone instead of the empty string. -/
theorem phone_spec_separator_counterexample :
    searchPhoneSpec ("555\t123\t4567").data = none ∧
    scanPhones [{ ariaLabel := "", text := "555\t123\t4567" }] =
      some "(555) 123-4567" :=
  ⟨by decide, by decide⟩

/-- C3 (amended): with separators drawn from '-', '.' or any whitespace
character, the extractor yields exactly the canonical form of the first
matching sequence of the first matching element and stops scanning; when
no element's text contains a matching sequence the scan yields nothing
and the phone field keeps its initial empty string. -/
theorem phone_normalization_amended (es : List PhoneElem) :
    ((∀ e ∈ es, searchPhone (elemScanText e).data = none) → scanPhones es = none) ∧
    (∀ (e : PhoneElem) (rest : List PhoneElem) (g : List Char × List Char × List Char),
        es = e :: rest → searchPhone (elemScanText e).data = some g →
        scanPhones es = some (formatPhone g)) ∧
    (∀ s : String, scanPhones es = some s → CanonicalPhone s) ∧
    (∀ (L : Listing) (info : Info), L.phoneElems = es → scanPhones es = none →
        phoneStep L info = info) := by
  refine ⟨?_, ?_, ?_, ?_⟩
  · induction es with
    | nil => intro _; rfl
    | cons e rest ih =>
        intro hall
        rw [scanPhones]
        rw [hall e (by simp)]
        exact ih (fun e2 he2 => hall e2 (by simp [he2]))
  · intro e rest g hes hg
    subst hes
    rw [scanPhones, hg]
  · induction es with
    | nil => intro s h; simp [scanPhones] at h
    | cons e rest ih =>
        intro s h
        rw [scanPhones] at h
        cases hm : searchPhone (elemScanText e).data with
        | none => rw [hm] at h; exact ih s h
        | some g =>
            rw [hm] at h
            simp only [Option.some.injEq] at h
            subst h
            obtain ⟨⟨l1, d1⟩, ⟨l2, d2⟩, ⟨l3, d3⟩⟩ := searchPhone_groups _ g hm
            exact ⟨g.1, g.2.1, g.2.2, l1, l2, l3, d1, d2, d3, rfl⟩
  · intro L info hpe hnone
    rw [phoneStep, hpe, hnone]

/-- Witness for the amended C3 at a concrete element list. -/
theorem phone_normalization_amended_witness :
    scanPhones [{ ariaLabel := "", text := "call 555.123.4567 now" }] =
      some (formatPhone (['5','5','5'], ['1','2','3'], ['4','5','6','7'])) ∧
    CanonicalPhone (formatPhone (['5','5','5'], ['1','2','3'], ['4','5','6','7'])) := by
  have h1 := (phone_normalization_amended
      [{ ariaLabel := "", text := "call 555.123.4567 now" }]).2.1
      { ariaLabel := "", text := "call 555.123.4567 now" } []
      (['5','5','5'], ['1','2','3'], ['4','5','6','7']) rfl (by decide)
  exact ⟨h1, (phone_normalization_amended _).2.2.1 _ h1⟩

/-- `x`'s key differs from the key of every record of `rs`. -/
def keyFree (rs : List Info) (x : Info) : Bool :=
  rs.all (fun r => leadKey x ≠ leadKey r)

/-- Peeling one record off an upsert sequence. -/
theorem upsertAll_cons (r : Info) (rs db : List Info) :
    upsertAll (r :: rs) db = upsertAll rs (save_lead_to_db r db) := rfl

/-- Splitting an upsert sequence. -/
theorem upsertAll_append (a b db : List Info) :
    upsertAll (a ++ b) db = upsertAll b (upsertAll a db) := by
  rw [upsertAll, upsertAll, upsertAll, List.foldl_append]

/-- An upsert sequence splits the store into the untouched rows (keys
not written by the sequence) followed by a canonical tail that depends on
the sequence alone. -/
theorem upsertAll_eq_filter_append :
    ∀ (rs db : List Info), upsertAll rs db = db.filter (keyFree rs) ++ upsertAll rs [] := by
  intro rs
  induction rs with
  | nil =>
      intro db
      have h1 : db.filter (keyFree []) = db := List.filter_eq_self.mpr (fun a _ => rfl)
      show db = db.filter (keyFree []) ++ upsertAll [] []
      rw [h1]
      simp [upsertAll]
  | cons r rest ih =>
      intro db
      have hpred : ∀ a : Info,
          (keyFree rest a && decide (leadKey a ≠ leadKey r)) = keyFree (r :: rest) a := by
        intro a
        simp [keyFree, Bool.and_comm]
      calc upsertAll (r :: rest) db
          = upsertAll rest (save_lead_to_db r db) := rfl
        _ = (save_lead_to_db r db).filter (keyFree rest) ++ upsertAll rest [] := ih _
        _ = (db.filter (fun x => leadKey x ≠ leadKey r)).filter (keyFree rest)
              ++ ([r].filter (keyFree rest) ++ upsertAll rest []) := by
              rw [save_lead_to_db, List.filter_append, List.append_assoc]
        _ = db.filter (keyFree (r :: rest)) ++ ([r].filter (keyFree rest) ++ upsertAll rest []) := by
              rw [List.filter_filter]
              exact congrArg (fun p => db.filter p ++ ([r].filter (keyFree rest) ++ upsertAll rest []))
                (funext hpred)
        _ = db.filter (keyFree (r :: rest)) ++ upsertAll (r :: rest) [] := by
              rw [upsertAll_cons]
              have : save_lead_to_db r ([] : List Info) = [r] := rfl
              rw [this, ih [r]]

/-- Records in the result of an upsert sequence come from the original
store or from the sequence. -/
theorem mem_upsertAll :
    ∀ (rs db : List Info) (x : Info), x ∈ upsertAll rs db → x ∈ db ∨ x ∈ rs := by
  intro rs
  induction rs with
  | nil => intro db x h; exact Or.inl h
  | cons r rest ih =>
      intro db x h
      rw [upsertAll_cons] at h
      rcases ih _ x h with h2 | h2
      · rw [save_lead_to_db] at h2
        rcases List.mem_append.mp h2 with h3 | h3
        · exact Or.inl (List.mem_of_mem_filter h3)
        · simp only [List.mem_singleton] at h3
          exact Or.inr (by simp [h3])
      · exact Or.inr (List.mem_cons_of_mem r h2)

/-- Every record of the canonical tail carries a key written by the
sequence, so filtering it by `keyFree` empties it. -/
theorem upsertAll_nil_filter (rs : List Info) :
    (upsertAll rs []).filter (keyFree rs) = [] := by
  rw [List.filter_eq_nil_iff]
  intro x hx
  rcases mem_upsertAll rs [] x hx with h | h
  · simp at h
  · intro hfree
    rw [keyFree, List.all_eq_true] at hfree
    have := hfree x h
    simp at this

/-- Replaying the same upsert sequence on its own result is a no-op. -/
theorem upsertAll_idem (rs db : List Info) :
    upsertAll rs (upsertAll rs db) = upsertAll rs db := by
  conv_lhs => rw [upsertAll_eq_filter_append rs (upsertAll rs db)]
  conv_lhs => rw [upsertAll_eq_filter_append rs db]
  rw [List.filter_append, upsertAll_nil_filter, List.append_nil, List.filter_filter]
  rw [upsertAll_eq_filter_append rs db]
  congr 1
  exact congrArg db.filter (funext fun a => by simp)

/-- One upsert keeps the keys pairwise distinct. -/
theorem keysNodup_save (r : Info) (db : List Info) (h : KeysNodup db) :
    KeysNodup (save_lead_to_db r db) := by
  rw [KeysNodup, save_lead_to_db, List.map_append, List.nodup_append]
  refine ⟨?_, by simp, ?_⟩
  · exact List.Nodup.sublist (List.Sublist.map leadKey (List.filter_sublist db)) h
  · intro a ha hb
    simp only [List.map_cons, List.map_nil, List.mem_singleton] at hb
    obtain ⟨x, hx, hax⟩ := List.mem_map.mp ha
    have := List.of_mem_filter hx
    simp only [decide_eq_true_eq] at this
    exact this (hax.trans hb)

/-- A whole upsert sequence keeps the keys pairwise distinct. -/
theorem keysNodup_upsertAll :
    ∀ (rs db : List Info), KeysNodup db → KeysNodup (upsertAll rs db) := by
  intro rs
  induction rs with
  | nil => intro db h; exact h
  | cons r rest ih => intro db h; exact ih _ (keysNodup_save r db h)

/-- The row stored under the written key after an upsert is exactly the
new record. -/
theorem save_replaces (r : Info) (db : List Info) :
    ∀ x ∈ save_lead_to_db r db, leadKey x = leadKey r → x = r := by
  intro x hx hkey
  rw [save_lead_to_db] at hx
  rcases List.mem_append.mp hx with h | h
  · have := List.of_mem_filter h
    simp only [decide_eq_true_eq] at this
    exact absurd hkey this
  · simpa using h

/-- A run fragment only appends leads: the lead list grows by a suffix
independent of the store, the counter grows by its length, and the store
receives exactly that suffix as upserts (in order). -/
def Shifts (f : HarvestState → HarvestState) : Prop :=
  ∀ st : HarvestState, ∃ ext : List Info,
    (f st).leads = st.leads ++ ext ∧
    (f st).current_leads = st.current_leads + ext.length ∧
    ∀ db2 : List Info,
      f { current_leads := st.current_leads, leads := st.leads, db := db2 } =
        { current_leads := (f st).current_leads, leads := (f st).leads,
          db := upsertAll ext db2 }

/-- The identity fragment shifts by nothing. -/
theorem shifts_id : Shifts (fun st => st) := by
  intro st
  refine ⟨[], by simp, by simp, fun db2 => ?_⟩
  show (⟨st.current_leads, st.leads, db2⟩ : HarvestState) =
    ⟨st.current_leads, st.leads, upsertAll [] db2⟩
  rfl

/-- Composition of shifting fragments shifts by the concatenation. -/
theorem shifts_comp (f g : HarvestState → HarvestState) (hf : Shifts f) (hg : Shifts g) :
    Shifts (fun st => g (f st)) := by
  intro st
  obtain ⟨ef, hf1, hf2, hf3⟩ := hf st
  obtain ⟨eg, hg1, hg2, hg3⟩ := hg (f st)
  refine ⟨ef ++ eg, ?_, ?_, ?_⟩
  · rw [hg1, hf1, List.append_assoc]
  · rw [hg2, hf2, List.length_append]
    omega
  · intro db2
    show g (f ⟨st.current_leads, st.leads, db2⟩) = _
    rw [hf3 db2]
    have h4 := hg3 (upsertAll ef db2)
    rw [h4, upsertAll_append]

/-- A fragment guarded by a quota check on the counter still shifts. -/
theorem shifts_guard (cond : Nat → Prop) [DecidablePred cond]
    (f : HarvestState → HarvestState) (hf : Shifts f) :
    Shifts (fun st => if cond st.current_leads then st else f st) := by
  intro st
  by_cases hc : cond st.current_leads
  · refine ⟨[], by simp [hc], by simp [hc], fun db2 => ?_⟩
    show (if cond st.current_leads then (⟨st.current_leads, st.leads, db2⟩ : HarvestState)
          else f ⟨st.current_leads, st.leads, db2⟩) =
      ⟨(if cond st.current_leads then st else f st).current_leads,
       (if cond st.current_leads then st else f st).leads, upsertAll [] db2⟩
    rw [if_pos hc, if_pos hc]
    rfl
  · obtain ⟨ef, h1, h2, h3⟩ := hf st
    refine ⟨ef, by simp [hc, h1], by simp [hc, h2], fun db2 => ?_⟩
    show (if cond st.current_leads then (⟨st.current_leads, st.leads, db2⟩ : HarvestState)
          else f ⟨st.current_leads, st.leads, db2⟩) =
      ⟨(if cond st.current_leads then st else f st).current_leads,
       (if cond st.current_leads then st else f st).leads, upsertAll ef db2⟩
    rw [if_neg hc, if_neg hc]
    exact h3 db2

/-- Unfolding: the per-card loop stops immediately once the quota is
reached. -/
theorem process_results_cons_stop (city : String) (tgt : Int) (r : Listing)
    (rest : List Listing) (st : HarvestState) (hge : (st.current_leads : Int) ≥ tgt) :
    process_results city tgt (r :: rest) st = (st, 0, true) := by
  rw [process_results, if_pos hge]

/-- Unfolding: a discarded card only bumps the processed counter. -/
theorem process_results_cons_none (city : String) (tgt : Int) (r : Listing)
    (rest : List Listing) (st : HarvestState)
    (hge : ¬(st.current_leads : Int) ≥ tgt) (hext : extract_business_info r = none) :
    process_results city tgt (r :: rest) st =
      ((process_results city tgt rest st).1,
       (process_results city tgt rest st).2.1 + 1,
       (process_results city tgt rest st).2.2) := by
  rw [process_results, if_neg hge]
  dsimp only
  rw [hext]

/-- Unfolding: an extracted card is appended, saved and counted before
the loop continues. -/
theorem process_results_cons_some (city : String) (tgt : Int) (r : Listing)
    (rest : List Listing) (st : HarvestState) (info0 : Info)
    (hge : ¬(st.current_leads : Int) ≥ tgt) (hext : extract_business_info r = some info0) :
    process_results city tgt (r :: rest) st =
      ((process_results city tgt rest
          ⟨st.current_leads + 1, st.leads ++ [{ info0 with city := city }],
           save_lead_to_db { info0 with city := city } st.db⟩).1,
       (process_results city tgt rest
          ⟨st.current_leads + 1, st.leads ++ [{ info0 with city := city }],
           save_lead_to_db { info0 with city := city } st.db⟩).2.1 + 1,
       (process_results city tgt rest
          ⟨st.current_leads + 1, st.leads ++ [{ info0 with city := city }],
           save_lead_to_db { info0 with city := city } st.db⟩).2.2) := by
  rw [process_results, if_neg hge]
  dsimp only
  rw [hext]

/-- The per-card loop shifts: it appends exactly the extracted leads and
saves each of them, with the processed count and the early-return flag
independent of the store. -/
theorem process_results_shifts (city : String) (tgt : Int) :
    ∀ (rs : List Listing) (st : HarvestState), ∃ ext : List Info,
      (process_results city tgt rs st).1.leads = st.leads ++ ext ∧
      (process_results city tgt rs st).1.current_leads = st.current_leads + ext.length ∧
      ∀ db2 : List Info,
        process_results city tgt rs
            { current_leads := st.current_leads, leads := st.leads, db := db2 } =
          ({ current_leads := (process_results city tgt rs st).1.current_leads,
             leads := (process_results city tgt rs st).1.leads,
             db := upsertAll ext db2 },
           (process_results city tgt rs st).2.1, (process_results city tgt rs st).2.2) := by
  intro rs
  induction rs with
  | nil =>
      intro st
      exact ⟨[], by simp [process_results], by simp [process_results], fun db2 => rfl⟩
  | cons r rest ih =>
      intro st
      by_cases hge : (st.current_leads : Int) ≥ tgt
      · refine ⟨[], ?_, ?_, ?_⟩
        · rw [process_results_cons_stop city tgt r rest st hge]
          simp
        · rw [process_results_cons_stop city tgt r rest st hge]
          simp
        · intro db2
          rw [process_results_cons_stop city tgt r rest
                ⟨st.current_leads, st.leads, db2⟩ hge,
              process_results_cons_stop city tgt r rest st hge]
          rfl
      · cases hext : extract_business_info r with
        | none =>
            obtain ⟨ext, h1, h2, h3⟩ := ih st
            refine ⟨ext, ?_, ?_, ?_⟩
            · rw [process_results_cons_none city tgt r rest st hge hext]
              exact h1
            · rw [process_results_cons_none city tgt r rest st hge hext]
              exact h2
            · intro db2
              rw [process_results_cons_none city tgt r rest
                    ⟨st.current_leads, st.leads, db2⟩ hge hext,
                  process_results_cons_none city tgt r rest st hge hext]
              rw [h3 db2]
            
        | some info0 =>
            obtain ⟨ext, h1, h2, h3⟩ :=
              ih ⟨st.current_leads + 1, st.leads ++ [{ info0 with city := city }],
                  save_lead_to_db { info0 with city := city } st.db⟩
            dsimp only at h1 h2 h3
            refine ⟨{ info0 with city := city } :: ext, ?_, ?_, ?_⟩
            · rw [process_results_cons_some city tgt r rest st info0 hge hext]
              dsimp only
              rw [h1, List.append_assoc]
              rfl
            · rw [process_results_cons_some city tgt r rest st info0 hge hext]
              dsimp only
              rw [h2, List.length_cons]
              omega
            · intro db2
              rw [process_results_cons_some city tgt r rest
                    ⟨st.current_leads, st.leads, db2⟩ info0 hge hext,
                  process_results_cons_some city tgt r rest st info0 hge hext]
              dsimp only
              rw [h3 (save_lead_to_db { info0 with city := city } db2)]
              rfl

/-- Unfolding: a raising iteration leaves the loop with the state. -/
theorem scroll_loop_succ_raises2 (iters : Nat → IterData) (city : String) (tgt : Int)
    (n k : Nat) (lastH : Int) (att proc : Nat) (st : HarvestState)
    (hg : att < 20 ∧ (st.current_leads : Int) < tgt) (hr : (iters k).raises = true) :
    scroll_loop iters city tgt (n + 1) k lastH att proc st = st := by
  rw [scroll_loop, if_pos hg]
  dsimp only
  rw [if_pos hr]

/-- Unfolding: a failed guard leaves the loop with the state. -/
theorem scroll_loop_succ_stop (iters : Nat → IterData) (city : String) (tgt : Int)
    (n k : Nat) (lastH : Int) (att proc : Nat) (st : HarvestState)
    (hg : ¬(att < 20 ∧ (st.current_leads : Int) < tgt)) :
    scroll_loop iters city tgt (n + 1) k lastH att proc st = st := by
  rw [scroll_loop, if_neg hg]

/-- Unfolding: a quiet iteration processes the new cards and either
returns early or continues with the updated stability counter. -/
theorem scroll_loop_succ_step (iters : Nat → IterData) (city : String) (tgt : Int)
    (n k : Nat) (lastH : Int) (att proc : Nat) (st : HarvestState)
    (hg : att < 20 ∧ (st.current_leads : Int) < tgt) (hr : ¬(iters k).raises = true) :
    scroll_loop iters city tgt (n + 1) k lastH att proc st =
      (if (process_results city tgt ((iters k).listings.drop proc) st).2.2 = true then
        (process_results city tgt ((iters k).listings.drop proc) st).1
       else if (iters k).newHeight = lastH then
        scroll_loop iters city tgt n (k + 1) lastH (att + 1)
          (proc + (process_results city tgt ((iters k).listings.drop proc) st).2.1)
          (process_results city tgt ((iters k).listings.drop proc) st).1
       else
        scroll_loop iters city tgt n (k + 1) (iters k).newHeight 0
          (proc + (process_results city tgt ((iters k).listings.drop proc) st).2.1)
          (process_results city tgt ((iters k).listings.drop proc) st).1) := by
  rw [scroll_loop, if_pos hg]
  dsimp only
  rw [if_neg hr]

/-- The scroll loop shifts, whatever its cursor arguments. -/
theorem scroll_loop_shifts (iters : Nat → IterData) (city : String) (tgt : Int) :
    ∀ (fuel k : Nat) (lastH : Int) (att proc : Nat),
      Shifts (scroll_loop iters city tgt fuel k lastH att proc) := by
  intro fuel
  induction fuel with
  | zero =>
      intro k lastH att proc st
      exact ⟨[], by simp [scroll_loop], by simp [scroll_loop], fun db2 => rfl⟩
  | succ n ih =>
      intro k lastH att proc st
      by_cases hg : att < 20 ∧ (st.current_leads : Int) < tgt
      · by_cases hr : (iters k).raises = true
        · refine ⟨[], ?_, ?_, ?_⟩
          · rw [scroll_loop_succ_raises2 iters city tgt n k lastH att proc st hg hr]
            simp
          · rw [scroll_loop_succ_raises2 iters city tgt n k lastH att proc st hg hr]
            simp
          · intro db2
            rw [scroll_loop_succ_raises2 iters city tgt n k lastH att proc
                  ⟨st.current_leads, st.leads, db2⟩ hg hr,
                scroll_loop_succ_raises2 iters city tgt n k lastH att proc st hg hr]
            rfl
        · obtain ⟨e1, p1, p2, p3⟩ :=
            process_results_shifts city tgt ((iters k).listings.drop proc) st
          by_cases he : (process_results city tgt ((iters k).listings.drop proc) st).2.2 = true
          · refine ⟨e1, ?_, ?_, ?_⟩
            · rw [scroll_loop_succ_step iters city tgt n k lastH att proc st hg hr,
                  if_pos he]
              exact p1
            · rw [scroll_loop_succ_step iters city tgt n k lastH att proc st hg hr,
                  if_pos he]
              exact p2
            · intro db2
              rw [scroll_loop_succ_step iters city tgt n k lastH att proc
                    ⟨st.current_leads, st.leads, db2⟩ hg hr,
                  p3 db2]
              dsimp only
              rw [if_pos he]
              rw [scroll_loop_succ_step iters city tgt n k lastH att proc st hg hr,
                  if_pos he]
          · by_cases hh : (iters k).newHeight = lastH
            · obtain ⟨e2, q1, q2, q3⟩ := ih (k + 1) lastH (att + 1)
                (proc + (process_results city tgt ((iters k).listings.drop proc) st).2.1)
                (process_results city tgt ((iters k).listings.drop proc) st).1
              refine ⟨e1 ++ e2, ?_, ?_, ?_⟩
              · rw [scroll_loop_succ_step iters city tgt n k lastH att proc st hg hr,
                    if_neg he, if_pos hh, q1, p1, List.append_assoc]
              · rw [scroll_loop_succ_step iters city tgt n k lastH att proc st hg hr,
                    if_neg he, if_pos hh, q2, p2, List.length_append]
                omega
              · intro db2
                rw [scroll_loop_succ_step iters city tgt n k lastH att proc
                      ⟨st.current_leads, st.leads, db2⟩ hg hr,
                    p3 db2]
                dsimp only
                rw [if_neg he, if_pos hh]
                rw [q3 (upsertAll e1 db2)]
                rw [scroll_loop_succ_step iters city tgt n k lastH att proc st hg hr,
                    if_neg he, if_pos hh, upsertAll_append]
            · obtain ⟨e2, q1, q2, q3⟩ := ih (k + 1) (iters k).newHeight 0
                (proc + (process_results city tgt ((iters k).listings.drop proc) st).2.1)
                (process_results city tgt ((iters k).listings.drop proc) st).1
              refine ⟨e1 ++ e2, ?_, ?_, ?_⟩
              · rw [scroll_loop_succ_step iters city tgt n k lastH att proc st hg hr,
                    if_neg he, if_neg hh, q1, p1, List.append_assoc]
              · rw [scroll_loop_succ_step iters city tgt n k lastH att proc st hg hr,
                    if_neg he, if_neg hh, q2, p2, List.length_append]
                omega
              · intro db2
                rw [scroll_loop_succ_step iters city tgt n k lastH att proc
                      ⟨st.current_leads, st.leads, db2⟩ hg hr,
                    p3 db2]
                dsimp only
                rw [if_neg he, if_neg hh]
                rw [q3 (upsertAll e1 db2)]
                rw [scroll_loop_succ_step iters city tgt n k lastH att proc st hg hr,
                    if_neg he, if_neg hh, upsertAll_append]
      · refine ⟨[], ?_, ?_, ?_⟩
        · rw [scroll_loop_succ_stop iters city tgt n k lastH att proc st hg]
          simp
        · rw [scroll_loop_succ_stop iters city tgt n k lastH att proc st hg]
          simp
        · intro db2
          rw [scroll_loop_succ_stop iters city tgt n k lastH att proc
                ⟨st.current_leads, st.leads, db2⟩ hg,
              scroll_loop_succ_stop iters city tgt n k lastH att proc st hg]
          rfl

/-- One query shifts. -/
theorem process_search_query_shifts (qd : QueryData) (city : String) (tgt : Int)
    (fuel : Nat) : Shifts (process_search_query qd city tgt fuel) := by
  intro st
  by_cases hn : qd.navOk = true
  · obtain ⟨e, h1, h2, h3⟩ := scroll_loop_shifts qd.iters city tgt fuel 0 0 0 0 st
    refine ⟨e, ?_, ?_, ?_⟩
    · rw [process_search_query, if_pos hn]
      exact h1
    · rw [process_search_query, if_pos hn]
      exact h2
    · intro db2
      rw [process_search_query, if_pos hn, process_search_query, if_pos hn]
      exact h3 db2
  · refine ⟨[], ?_, ?_, ?_⟩
    · rw [process_search_query, if_neg hn]
      simp
    · rw [process_search_query, if_neg hn]
      simp
    · intro db2
      rw [process_search_query, if_neg hn, process_search_query, if_neg hn]
      rfl

/-- Unfolding: below the quota the query loop runs the head query and
continues. -/
theorem run_queries_cons_go (ls : LocationSurface) (city : String) (tgt : Int)
    (fuel : Nat) (q : String) (rest : List String) (st : HarvestState)
    (hq : ¬(st.current_leads : Int) ≥ tgt) :
    run_queries ls city tgt fuel (q :: rest) st =
      run_queries ls city tgt fuel rest
        (process_search_query (ls.queries q) city tgt fuel st) := by
  rw [run_queries, if_neg hq]

/-- The query loop shifts. -/
theorem run_queries_shifts (ls : LocationSurface) (city : String) (tgt : Int)
    (fuel : Nat) : ∀ qs : List String, Shifts (run_queries ls city tgt fuel qs) := by
  intro qs
  induction qs with
  | nil =>
      intro st
      exact ⟨[], by simp [run_queries], by simp [run_queries], fun db2 => rfl⟩
  | cons q rest ih =>
      intro st
      by_cases hq : (st.current_leads : Int) ≥ tgt
      · refine ⟨[], ?_, ?_, ?_⟩
        · rw [run_queries_stop ls city tgt fuel (q :: rest) st hq]
          simp
        · rw [run_queries_stop ls city tgt fuel (q :: rest) st hq]
          simp
        · intro db2
          rw [run_queries_stop ls city tgt fuel (q :: rest)
                ⟨st.current_leads, st.leads, db2⟩ hq,
              run_queries_stop ls city tgt fuel (q :: rest) st hq]
          rfl
      · obtain ⟨e1, p1, p2, p3⟩ := process_search_query_shifts (ls.queries q) city tgt fuel st
        obtain ⟨e2, q1, q2, q3⟩ := ih (process_search_query (ls.queries q) city tgt fuel st)
        refine ⟨e1 ++ e2, ?_, ?_, ?_⟩
        · rw [run_queries_cons_go ls city tgt fuel q rest st hq, q1, p1, List.append_assoc]
        · rw [run_queries_cons_go ls city tgt fuel q rest st hq, q2, p2, List.length_append]
          omega
        · intro db2
          rw [run_queries_cons_go ls city tgt fuel q rest
                ⟨st.current_leads, st.leads, db2⟩ hq,
              run_queries_cons_go ls city tgt fuel q rest st hq]
          rw [p3 db2]
          rw [q3 (upsertAll e1 db2)]
          rw [upsertAll_append]

/-- One location shifts. -/
theorem search_location_shifts (ls : LocationSurface) (niche city province : String)
    (tgt : Int) (fuel : Nat) : Shifts (search_location ls niche city province tgt fuel) := by
  intro st
  cases hd : initialize_driver ls.attempts with
  | none =>
      refine ⟨[], ?_, ?_, ?_⟩
      · rw [search_location, hd]
        simp
      · rw [search_location, hd]
        simp
      · intro db2
        rw [search_location, hd, search_location, hd]
        rfl
  | some d =>
      obtain ⟨e, h1, h2, h3⟩ :=
        run_queries_shifts ls city tgt fuel (search_queries niche city province) st
      refine ⟨e, ?_, ?_, ?_⟩
      · rw [search_location, hd]
        exact h1
      · rw [search_location, hd]
        exact h2
      · intro db2
        rw [search_location, hd, search_location, hd]
        exact h3 db2

/-- Unfolding: below the quota the location loop harvests the head
location and continues. -/
theorem run_locations_cons_go (js : JobSurface) (niche : String) (tgt : Int) (fuel : Nat)
    (loc : String × String) (rest : List (String × String)) (st : HarvestState)
    (hq : ¬(st.current_leads : Int) ≥ tgt) :
    run_locations js niche tgt fuel (loc :: rest) st =
      run_locations js niche tgt fuel rest
        (search_location (js loc.1 loc.2) niche loc.1 loc.2 tgt fuel st) := by
  rw [run_locations, if_neg hq]

/-- The location loop shifts. -/
theorem run_locations_shifts (js : JobSurface) (niche : String) (tgt : Int)
    (fuel : Nat) : ∀ locs : List (String × String),
      Shifts (run_locations js niche tgt fuel locs) := by
  intro locs
  induction locs with
  | nil =>
      intro st
      exact ⟨[], by simp [run_locations], by simp [run_locations], fun db2 => rfl⟩
  | cons loc rest ih =>
      intro st
      by_cases hq : (st.current_leads : Int) ≥ tgt
      · refine ⟨[], ?_, ?_, ?_⟩
        · rw [run_locations_stop js niche tgt fuel (loc :: rest) st hq]
          simp
        · rw [run_locations_stop js niche tgt fuel (loc :: rest) st hq]
          simp
        · intro db2
          rw [run_locations_stop js niche tgt fuel (loc :: rest)
                ⟨st.current_leads, st.leads, db2⟩ hq,
              run_locations_stop js niche tgt fuel (loc :: rest) st hq]
          rfl
      · obtain ⟨e1, p1, p2, p3⟩ :=
          search_location_shifts (js loc.1 loc.2) niche loc.1 loc.2 tgt fuel st
        obtain ⟨e2, q1, q2, q3⟩ :=
          ih (search_location (js loc.1 loc.2) niche loc.1 loc.2 tgt fuel st)
        refine ⟨e1 ++ e2, ?_, ?_, ?_⟩
        · rw [run_locations_cons_go js niche tgt fuel loc rest st hq, q1, p1,
            List.append_assoc]
        · rw [run_locations_cons_go js niche tgt fuel loc rest st hq, q2, p2,
            List.length_append]
          omega
        · intro db2
          rw [run_locations_cons_go js niche tgt fuel loc rest
                ⟨st.current_leads, st.leads, db2⟩ hq,
              run_locations_cons_go js niche tgt fuel loc rest st hq]
          rw [p3 db2]
          rw [q3 (upsertAll e1 db2)]
          rw [upsertAll_append]

/-- C2: the pair (business_name, city) is the store's natural key — an
upsert on a present key fully replaces the row; the stored keys stay
pairwise distinct (never a duplicate); and re-running the same job
against the same fixed surface leaves the store with exactly the same
record count and content as running it once. -/
theorem store_upsert_idempotent (js : JobSurface) (niche city province : String)
    (tgt : Int) (fuel : Nat) (db0 : List Info) (h : KeysNodup db0) :
    (∀ r : Info, ∀ x ∈ save_lead_to_db r db0, leadKey x = leadKey r → x = r) ∧
    KeysNodup (dbAfter js niche city province tgt fuel db0) ∧
    dbAfter js niche city province tgt fuel (dbAfter js niche city province tgt fuel db0) =
      dbAfter js niche city province tgt fuel db0 := by
  refine ⟨fun r => save_replaces r db0, ?_⟩
  by_cases hv : niche = "" ∨ city = "" ∨ province = ""
  · have hinv : dbAfter js niche city province tgt fuel db0 = db0 := by
      rw [dbAfter, generate_leads, if_pos hv]
    rw [hinv]
    exact ⟨h, hinv⟩
  · obtain ⟨L, h1, h2, h3⟩ := run_locations_shifts js niche tgt fuel
      (get_expanded_locations city province) ⟨0, [], db0⟩
    dsimp only at h3
    have hval : ∀ db : List Info, dbAfter js niche city province tgt fuel db =
        (run_locations js niche tgt fuel (get_expanded_locations city province)
          ⟨0, [], db⟩).db := by
      intro db
      rw [dbAfter, generate_leads, if_neg hv]
    have hdb : ∀ db : List Info,
        (run_locations js niche tgt fuel (get_expanded_locations city province)
          ⟨0, [], db⟩).db = upsertAll L db := by
      intro db
      rw [h3 db]
    have e0 : dbAfter js niche city province tgt fuel db0 = upsertAll L db0 := by
      rw [hval db0, hdb db0]
    constructor
    · rw [e0]
      exact keysNodup_upsertAll L db0 h
    · rw [e0, hval (upsertAll L db0), hdb (upsertAll L db0), upsertAll_idem]

/-- Witness for C2 at a concrete surface, job and empty store. -/
theorem store_upsert_idempotent_witness :
    KeysNodup (dbAfter exJS "plumber" "Toronto" "ON" 1 5 []) ∧
    dbAfter exJS "plumber" "Toronto" "ON" 1 5
        (dbAfter exJS "plumber" "Toronto" "ON" 1 5 []) =
      dbAfter exJS "plumber" "Toronto" "ON" 1 5 [] :=
  ⟨(store_upsert_idempotent exJS "plumber" "Toronto" "ON" 1 5 [] List.nodup_nil).2.1,
   (store_upsert_idempotent exJS "plumber" "Toronto" "ON" 1 5 [] List.nodup_nil).2.2⟩

end LeadFinder
